import Mathlib

/-!
Shallow embedding of `src/vr180_streamlit/utils/video_processor.py`
(class `SimpleVRProcessor`).

Modelling conventions:
* an OpenCV/NumPy image is an `Image α`: a height, a width, and a total
  pixel function (out-of-range reads are only ever used behind border
  handling or zero interpolation weights);
* `uint8` pixel data is carried as `ℚ` values together with range
  hypotheses `0 ≤ v ∧ v ≤ 255` where a claim needs them;
* Python floats are modelled as exact rationals (`ℚ`), except for the
  depth-estimation internals where `np.sqrt` forces real numbers (`ℝ`);
* cv2/NumPy library semantics that the code relies on (BORDER_REFLECT_101,
  broadcast rules, NORM_MINMAX, bilinear remap) are embedded explicitly.
-/

/-- A single-channel (or per-channel) raster: dimensions plus pixel data. -/
structure Image (α : Type) where
  height : ℕ
  width : ℕ
  pix : ℕ → ℕ → α

/-- A 3-channel BGR pixel (OpenCV channel order: 0 = B, 1 = G, 2 = R). -/
abbrev Pix : Type := Fin 3 → ℚ

/-- A color video frame. -/
abbrev Frame : Type := Image Pix

/-- OpenCV `BORDER_REFLECT_101` index folding (`gfedcb|abcdefgh|gfedcba`):
closed form of OpenCV's `borderInterpolate` reflection loop, periodic with
period `2*n - 2`; a 1-pixel extent always resolves to index 0. -/
def reflect101 (n : ℕ) (p : ℤ) : ℕ :=
  if n ≤ 1 then 0
  else if p.emod (2 * (n : ℤ) - 2) < (n : ℤ) then
    (p.emod (2 * (n : ℤ) - 2)).toNat
  else (2 * (n : ℤ) - 2 - p.emod (2 * (n : ℤ) - 2)).toNat

/-- `np.clip` on scalars: `max lo (min v hi)`. -/
def clipQ (v lo hi : ℚ) : ℚ := max lo (min v hi)

/-- NumPy broadcast of an axis of extent `m` against a target index `i`:
an axis of extent 1 is stretched (index 0), otherwise the index is used. -/
def broadcastIdx (m i : ℕ) : ℕ := if m = 1 then 0 else i

/-- The per-pixel horizontal shift added to the sampling grid in
`shift_image`: `disparity * direction * 0.3` (source line
`x_shifted = x_coords + (disparity * direction * 0.3)`). -/
def shiftTerm (d direction : ℚ) : ℚ := d * direction * (3 / 10)

/-- The warp of `shift_image` once shapes are known to be compatible:
sample coordinate `x' = clip (x + disparity*direction*0.3) 0 (width-1)`,
`y` unchanged, bilinear (`cv2.INTER_LINEAR`) resampling along `x`
(the vertical interpolation weight is identically zero because the `y`
map is the integer grid). Interpolation is modelled exactly over `ℚ`. -/
def shiftCore (image : Image Pix) (disparity : Image ℚ) (direction : ℚ) :
    Image Pix :=
  { height := image.height
    width := image.width
    pix := fun y x =>
      let d : ℚ := disparity.pix (broadcastIdx disparity.height y)
        (broadcastIdx disparity.width x)
      let xs : ℚ := clipQ ((x : ℚ) + shiftTerm d direction) 0
        ((image.width : ℚ) - 1)
      let x0 : ℤ := ⌊xs⌋
      let fr : ℚ := xs - (x0 : ℚ)
      fun c => (1 - fr) * image.pix y x0.toNat c
        + fr * image.pix y (x0.toNat + 1) c }

/-- `SimpleVRProcessor.shift_image`.  The NumPy expression
`x_coords + disparity * direction * 0.3` broadcasts the disparity array
against the `(height, width)` coordinate grid: it succeeds exactly when
each disparity axis matches the image axis or has extent 1 (a larger
disparity axis would also make the map shapes disagree and make
`cv2.remap` fail).  On success the warped image is produced; there is no
explicit dimension validation in the source. -/
def shift_image (image : Image Pix) (disparity : Image ℚ) (direction : ℚ) :
    Except String (Image Pix) :=
  if (disparity.height = image.height ∨ disparity.height = 1)
      ∧ (disparity.width = image.width ∨ disparity.width = 1) then
    Except.ok (shiftCore image disparity direction)
  else
    Except.error "operands could not be broadcast together"

/-- The disparity field built inside `create_stereo_pair`:
`depth_norm = depth_map/255`, `disparity = depth_norm * max_disparity`
with `max_disparity = 15`. -/
def disparityMap (depth_map : Image ℚ) : Image ℚ :=
  { height := depth_map.height
    width := depth_map.width
    pix := fun y x => depth_map.pix y x / 255 * 15 }

/-- `SimpleVRProcessor.create_stereo_pair`: left eye = shift with
direction `+1`, right eye = shift with direction `-1`. -/
def create_stereo_pair (frame : Image Pix) (depth_map : Image ℚ) :
    Except String (Image Pix × Image Pix) :=
  match shift_image frame (disparityMap depth_map) 1 with
  | Except.error e => Except.error e
  | Except.ok left_eye =>
    match shift_image frame (disparityMap depth_map) (-1) with
    | Except.error e => Except.error e
    | Except.ok right_eye => Except.ok (left_eye, right_eye)

/-- `np.hstack [left, right]`: horizontal concatenation, left first.
In every use in this program both arguments have equal heights. -/
def hstack (l r : Image Pix) : Image Pix :=
  { height := l.height
    width := l.width + r.width
    pix := fun y x => if x < l.width then l.pix y x else r.pix y (x - l.width) }

/-- `cv2.cvtColor(frame, cv2.COLOR_BGR2GRAY)` on `uint8` data, using
OpenCV's exact fixed-point coefficients
`(4899*R + 9617*G + 1868*B + 8192) >> 14` (the weights `0.299/0.587/0.114`
scaled by `2^14`). -/
def cvtGray (f : Image Pix) : Image ℚ :=
  { height := f.height
    width := f.width
    pix := fun y x =>
      ((⌊(4899 * f.pix y x 2 + 9617 * f.pix y x 1 + 1868 * f.pix y x 0
        + 8192) / 16384⌋ : ℤ) : ℚ) }

/-- OpenCV's fixed 5-tap Gaussian kernel `[1,4,6,4,1]/16` (used by
`cv2.GaussianBlur` for `ksize = 5` and `sigma = 0` on `uint8` data). -/
def w5 (i : ℕ) : ℚ :=
  match i with
  | 0 => 1 / 16
  | 1 => 4 / 16
  | 2 => 6 / 16
  | 3 => 4 / 16
  | 4 => 1 / 16
  | _ => 0

/-- `cv2.GaussianBlur(gray, (5,5), 0)` on `uint8` data: separable
`[1,4,6,4,1]/16` kernel, `BORDER_REFLECT_101`, result rounded to the
nearest integer (`uint8` output). -/
def gaussianBlur5U8 (g : Image ℚ) : Image ℚ :=
  { height := g.height
    width := g.width
    pix := fun y x =>
      ((round (∑ i in Finset.range 5, ∑ j in Finset.range 5,
        w5 i * w5 j * g.pix (reflect101 g.height ((y : ℤ) + (i : ℤ) - 2))
          (reflect101 g.width ((x : ℤ) + (j : ℤ) - 2))) : ℤ) : ℚ) }

/-- The smoothing factor `[1,2,1]` of the separable 3×3 Sobel kernel. -/
def sobelSmooth (i : ℕ) : ℚ :=
  match i with
  | 0 => 1
  | 1 => 2
  | 2 => 1
  | _ => 0

/-- The derivative factor `[-1,0,1]` of the separable 3×3 Sobel kernel. -/
def sobelDeriv (i : ℕ) : ℚ :=
  match i with
  | 0 => -1
  | 1 => 0
  | 2 => 1
  | _ => 0

/-- `cv2.Sobel(blurred, cv2.CV_64F, 1, 0, ksize=3)`: correlation with
`[[-1,0,1],[-2,0,2],[-1,0,1]]` under `BORDER_REFLECT_101`; exact on
integer-valued input, so modelled over `ℚ`. -/
def sobelX (g : Image ℚ) : Image ℚ :=
  { height := g.height
    width := g.width
    pix := fun y x =>
      ∑ i in Finset.range 3, ∑ j in Finset.range 3,
        sobelSmooth i * sobelDeriv j
          * g.pix (reflect101 g.height ((y : ℤ) + (i : ℤ) - 1))
            (reflect101 g.width ((x : ℤ) + (j : ℤ) - 1)) }

/-- `cv2.Sobel(blurred, cv2.CV_64F, 0, 1, ksize=3)`: the transposed
kernel `[[-1,-2,-1],[0,0,0],[1,2,1]]`. -/
def sobelY (g : Image ℚ) : Image ℚ :=
  { height := g.height
    width := g.width
    pix := fun y x =>
      ∑ i in Finset.range 3, ∑ j in Finset.range 3,
        sobelDeriv i * sobelSmooth j
          * g.pix (reflect101 g.height ((y : ℤ) + (i : ℤ) - 1))
            (reflect101 g.width ((x : ℤ) + (j : ℤ) - 1)) }

/-- Minimum pixel value over the (in-range) grid of a real image; `0` on
an empty grid. -/
noncomputable def gridMin (img : Image ℝ) : ℝ :=
  if hne : ((Finset.range img.height) ×ˢ (Finset.range img.width)).Nonempty
  then ((Finset.range img.height) ×ˢ (Finset.range img.width)).inf' hne
    (fun p => img.pix p.1 p.2)
  else 0

/-- Maximum pixel value over the (in-range) grid of a real image; `0` on
an empty grid. -/
noncomputable def gridMax (img : Image ℝ) : ℝ :=
  if hne : ((Finset.range img.height) ×ˢ (Finset.range img.width)).Nonempty
  then ((Finset.range img.height) ×ˢ (Finset.range img.width)).sup' hne
    (fun p => img.pix p.1 p.2)
  else 0

/-- `cv2.normalize(depth, None, 0, 255, cv2.NORM_MINMAX)` on `float64`
data: `v ↦ (v - min) * (255 / (max - min))`; when the image is constant
OpenCV uses scale `0`, mapping everything to the lower bound `0`. -/
noncomputable def normalizeMinMax (img : Image ℝ) : Image ℝ :=
  { height := img.height
    width := img.width
    pix := fun y x =>
      if 0 < gridMax img - gridMin img then
        (img.pix y x - gridMin img) * (255 / (gridMax img - gridMin img))
      else 0 }

/-- OpenCV's fixed 7-tap Gaussian kernel `[4,14,28,36,28,14,4]/128`
(used by `cv2.GaussianBlur` for `ksize = 7` and `sigma = 0`). -/
def w7 (i : ℕ) : ℚ :=
  if i = 0 then 4 / 128
  else if i = 1 then 14 / 128
  else if i = 2 then 28 / 128
  else if i = 3 then 36 / 128
  else if i = 4 then 28 / 128
  else if i = 5 then 14 / 128
  else if i = 6 then 4 / 128
  else 0

/-- `cv2.GaussianBlur(depth, (7,7), 0)` on `float64` data: exact
convolution with the separable `[4,14,28,36,28,14,4]/128` kernel under
`BORDER_REFLECT_101` (no quantization on floating-point input). -/
noncomputable def gaussianBlur7F (img : Image ℝ) : Image ℝ :=
  { height := img.height
    width := img.width
    pix := fun y x =>
      ∑ i in Finset.range 7, ∑ j in Finset.range 7,
        ((w7 i : ℝ) * (w7 j : ℝ))
          * img.pix (reflect101 img.height ((y : ℤ) + (i : ℤ) - 3))
            (reflect101 img.width ((x : ℤ) + (j : ℤ) - 3)) }

/-- `SimpleVRProcessor.simple_depth_estimation`: grayscale → 5×5 blur →
Sobel gradients → gradient magnitude → combine with brightness:
`depth = gradient_mag * 0.7 + brightness_factor * 0.3` where
`brightness_factor = gray/255`.  `np.sqrt` forces the real-valued model
of these inner stages.  The remaining stages (normalize, 7×7 blur,
`astype(np.uint8)` — truncation toward zero, i.e. floor on the
non-negative values produced there) are in `simple_depth_estimation`. -/
noncomputable def depthCombined (frame : Image Pix) : Image ℝ :=
  let gray := cvtGray frame
  let blurred := gaussianBlur5U8 gray
  let grad_x := sobelX blurred
  let grad_y := sobelY blurred
  let gradient_mag : Image ℝ :=
    { height := frame.height
      width := frame.width
      pix := fun y x =>
        Real.sqrt (((grad_x.pix y x : ℝ)) ^ 2 + ((grad_y.pix y x : ℝ)) ^ 2) }
  let brightness_factor : Image ℝ :=
    { height := frame.height
      width := frame.width
      pix := fun y x => (gray.pix y x : ℝ) / 255 }
  { height := frame.height
    width := frame.width
    pix := fun y x =>
      gradient_mag.pix y x * (7 / 10) + brightness_factor.pix y x * (3 / 10) }

/-- The tail of `simple_depth_estimation`: min-max normalize the combined
depth to `[0,255]`, blur 7×7, quantize to `uint8`. -/
noncomputable def simple_depth_estimation (frame : Image Pix) : Image ℚ :=
  let depth := depthCombined frame
  let depthN := normalizeMinMax depth
  let depthB := gaussianBlur7F depthN
  { height := frame.height
    width := frame.width
    pix := fun y x => ((⌊depthB.pix y x⌋ : ℤ) : ℚ) }

/-- The stereo frame that one loop iteration of `convert_to_vr180`
produces from one input frame: depth estimation, stereo pair, `np.hstack`
(left first).  `create_stereo_pair` always succeeds on this pair because
the estimated depth map has exactly the frame's dimensions. -/
noncomputable def vrFrame (f : Image Pix) : Image Pix :=
  hstack (shiftCore f (disparityMap (simple_depth_estimation f)) 1)
    (shiftCore f (disparityMap (simple_depth_estimation f)) (-1))

/-- One recorded invocation of the progress callback:
`(percent, message, stage)`. -/
abbrev ProgressEvent : Type := ℚ × String × ℕ

/-- The Python exceptions that can be raised inside the `try` block of
`convert_to_vr180`, by raise site. -/
inductive PyError where
  /-- `ZeroDivisionError` from `frame_count / total_frames`. -/
  | zeroDivision : PyError
  /-- `VideoFileClip(input_path)` fails on an unreadable input. -/
  | moviepyUnreadable : PyError
  /-- `VideoFileClip(temp_video_path)` fails because the `cv2.VideoWriter`
  never opened and the temp video file was never created. -/
  | moviepyTempUnreadable : PyError
  /-- the audio mux / re-encode (`set_audio` + `write_videofile`) fails. -/
  | muxFailure : PyError
  /-- NumPy/OpenCV shape error inside the frame loop (never reachable from
  the loop because the depth map always matches the frame). -/
  | shapeMismatch : PyError
deriving DecidableEq

/-- The message of the exception re-raised by the `except` handler:
`Exception(f"Conversion failed: {str(e)}")`. -/
def pyMsg : PyError → String
  | PyError.zeroDivision => "Conversion failed: division by zero"
  | PyError.moviepyUnreadable => "Conversion failed: could not read input video"
  | PyError.moviepyTempUnreadable => "Conversion failed: could not read temp video"
  | PyError.muxFailure => "Conversion failed: audio mux error"
  | PyError.shapeMismatch => "Conversion failed: shape mismatch"

/-- State threaded through the per-frame loop: the callback invocations
made so far and the frames accepted by the `cv2.VideoWriter`. -/
structure LoopSt where
  trace : List ProgressEvent
  written : List (Image Pix)

/-- An input video file as seen through `cv2.VideoCapture` metadata plus
its decodable frame stream and audio track.  `total_frames` is the
container's `CAP_PROP_FRAME_COUNT`, which may disagree with the number of
actually decodable frames. -/
structure VideoFile where
  fps : ℚ
  width : ℕ
  height : ℕ
  total_frames : ℕ
  frames : List (Image Pix)
  hasAudio : Bool

/-- The external world of one `convert_to_vr180` call: the input path's
content (`none` = file unopenable / unreadable by both cv2 and MoviePy)
and whether the MoviePy mux/re-encode step would fail. -/
structure Env where
  input : Option VideoFile
  muxFail : Bool

/-- Observable outcome of one `convert_to_vr180` call: callback trace,
final handle states, final filesystem state, frames written to the
video-only stream, and the returned path or raised exception message. -/
structure ConvOut where
  trace : List ProgressEvent
  capOpen : Bool
  outOpen : Bool
  tempVideoExists : Bool
  outputExists : Bool
  outputDirExists : Bool
  written : List (Image Pix)
  result : Except String String

/-- The progress percentage of the frame loop:
`20 + (frame_count / total_frames) * 60`. -/
def pct (k total : ℕ) : ℚ := 20 + ((k : ℚ) / (total : ℚ)) * 60

/-- `out.write(vr_frame)`: `cv2.VideoWriter.write` silently drops the
frame unless the writer opened and the frame size equals the size the
writer was opened with (`(vr_width, vr_height) = (2*width, height)` from
the capture metadata). -/
def writeFrame (st : LoopSt) (wop : Bool) (mw mh : ℕ) (vr : Image Pix) :
    LoopSt :=
  if wop = true ∧ vr.height = mh ∧ vr.width = 2 * mw then
    { trace := st.trace, written := st.written ++ [vr] }
  else st

/-- One iteration of the `while True` loop of `convert_to_vr180` on a
successfully read frame `f` with loop counter `k`: the two guarded
progress calls (each computing `20 + (k/total)*60`, which raises
`ZeroDivisionError` when `total = 0`), depth estimation, stereo pair,
`np.hstack`, `out.write`. -/
noncomputable def processFrame (cb : Bool) (total mw mh : ℕ) (wop : Bool)
    (k : ℕ) (f : Image Pix) (st : LoopSt) : LoopSt × Option PyError :=
  if cb = true ∧ k % 30 = 0 then
    if total = 0 then (st, some PyError.zeroDivision)
    else
      let st1 : LoopSt :=
        { trace := st.trace ++ [(pct k total, "Analyzing depth...", 1)]
          written := st.written }
      let depth_map := simple_depth_estimation f
      let st2 : LoopSt :=
        { trace := st1.trace ++ [(pct k total, "Creating stereo view...", 2)]
          written := st1.written }
      match create_stereo_pair f depth_map with
      | Except.error _ => (st2, some PyError.shapeMismatch)
      | Except.ok lr => (writeFrame st2 wop mw mh (hstack lr.1 lr.2), none)
  else
    match create_stereo_pair f (simple_depth_estimation f) with
    | Except.error _ => (st, some PyError.shapeMismatch)
    | Except.ok lr => (writeFrame st wop mw mh (hstack lr.1 lr.2), none)

/-- The whole `while True` frame loop: frames are read in stream order;
the loop stops at the first raised exception (which propagates). -/
noncomputable def processFrames (cb : Bool) (total mw mh : ℕ) (wop : Bool) :
    List (Image Pix) → ℕ → LoopSt → LoopSt × Option PyError
  | [], _, st => (st, none)
  | f :: rest, k, st =>
    match processFrame cb total mw mh wop k f st with
    | (st1, none) => processFrames cb total mw mh wop rest (k + 1) st1
    | (st1, some e) => (st1, some e)

/-- The callback invocations the frame loop makes for `n` frames starting
at loop counter `k` (no exception raised): two calls per frame whose
counter is a multiple of 30. -/
def loopTrace (cb : Bool) (total : ℕ) : ℕ → ℕ → List ProgressEvent
  | 0, _ => []
  | n + 1, k =>
    (if cb = true ∧ k % 30 = 0 then
      [(pct k total, "Analyzing depth...", 1),
        (pct k total, "Creating stereo view...", 2)]
    else []) ++ loopTrace cb total n (k + 1)

/-- `SimpleVRProcessor.convert_to_vr180(input_path, progress_callback)`.
`cb` records whether a progress callback was supplied.  Mirrors the
source line by line: fresh temp directory; `try:` callback(10); open
capture (never raises; a bad path yields zero metadata and no frames);
open writer (opens only for positive fps and dimensions, creating the
temp video file); frame loop; release capture and writer; callback(95);
`VideoFileClip(input_path)` (raises on unreadable input);
`VideoFileClip(temp_video_path)` (raises when the writer never created
the file); audio branch (mux on `hasAudio`, else `os.rename`); remove the
temp video; callback(100); return.  The `except` handler removes the temp
video file if present and re-raises `Conversion failed: ...`; it releases
no handles and never removes the temp directory. -/
noncomputable def convert_to_vr180 (env : Env) (cb : Bool) : ConvOut :=
  let fps : ℚ := match env.input with | some v => v.fps | none => 0
  let width : ℕ := match env.input with | some v => v.width | none => 0
  let height : ℕ := match env.input with | some v => v.height | none => 0
  let total : ℕ := match env.input with | some v => v.total_frames | none => 0
  let frames : List (Image Pix) :=
    match env.input with | some v => v.frames | none => []
  let trace0 : List ProgressEvent :=
    if cb = true then [((10 : ℚ), "Loading video...", (0 : ℕ))] else []
  let wop : Bool := decide (0 < fps) && decide (0 < width) && decide (0 < height)
  let pr := processFrames cb total width height wop frames 0
    { trace := [], written := [] }
  match pr.2 with
  | some e =>
    { trace := trace0 ++ pr.1.trace
      capOpen := true
      outOpen := true
      tempVideoExists := false
      outputExists := false
      outputDirExists := true
      written := pr.1.written
      result := Except.error (pyMsg e) }
  | none =>
    let trace1 : List ProgressEvent := trace0 ++ pr.1.trace
      ++ (if cb = true then [((95 : ℚ), "Adding audio...", (3 : ℕ))] else [])
    match env.input with
    | none =>
      { trace := trace1
        capOpen := false
        outOpen := false
        tempVideoExists := false
        outputExists := false
        outputDirExists := true
        written := pr.1.written
        result := Except.error (pyMsg PyError.moviepyUnreadable) }
    | some v =>
      if wop = false then
        { trace := trace1
          capOpen := false
          outOpen := false
          tempVideoExists := false
          outputExists := false
          outputDirExists := true
          written := pr.1.written
          result := Except.error (pyMsg PyError.moviepyTempUnreadable) }
      else if v.hasAudio = true then
        if env.muxFail = true then
          { trace := trace1
            capOpen := false
            outOpen := false
            tempVideoExists := false
            outputExists := false
            outputDirExists := true
            written := pr.1.written
            result := Except.error (pyMsg PyError.muxFailure) }
        else
          { trace := trace1
            ++ (if cb = true then
              [((100 : ℚ), "Conversion complete!", (4 : ℕ))] else [])
            capOpen := false
            outOpen := false
            tempVideoExists := false
            outputExists := true
            outputDirExists := true
            written := pr.1.written
            result := Except.ok "vr180_output.mp4" }
      else
        { trace := trace1
          ++ (if cb = true then
            [((100 : ℚ), "Conversion complete!", (4 : ℕ))] else [])
          capOpen := false
          outOpen := false
          tempVideoExists := false
          outputExists := true
          outputDirExists := true
          written := pr.1.written
          result := Except.ok "vr180_output.mp4" }

/-- A concrete 2×2 test frame (all channels 100). -/
def tFrame : Image Pix := { height := 2, width := 2, pix := fun _ _ _ => 100 }

/-- A concrete 1×1 test frame (all channels 100). -/
def tFrame1 : Image Pix := { height := 1, width := 1, pix := fun _ _ _ => 100 }

/-- A concrete 2×2 all-zero depth map. -/
def tDepthZero : Image ℚ := { height := 2, width := 2, pix := fun _ _ => 0 }

/-- A concrete 1×1 depth map holding the maximal `uint8` value. -/
def tDepthFull : Image ℚ := { height := 1, width := 1, pix := fun _ _ => 255 }

/-- A readable 1-frame input video with no audio track. -/
def envOk : Env :=
  { input := some
      { fps := 30, width := 1, height := 1, total_frames := 5
        frames := [tFrame1], hasAudio := false }
    muxFail := false }

/-- A readable 1-frame input with an audio track whose mux step fails. -/
def envMux : Env :=
  { input := some
      { fps := 30, width := 1, height := 1, total_frames := 5
        frames := [tFrame1], hasAudio := true }
    muxFail := true }

/-- An unopenable input file. -/
def envNoInput : Env := { input := none, muxFail := false }

/-- A readable input whose container metadata reports 1 frame while the
stream decodes 31 frames (frame-count metadata is container-approximate). -/
def envMeta31 : Env :=
  { input := some
      { fps := 30, width := 1, height := 1, total_frames := 1
        frames := List.replicate 31 tFrame1, hasAudio := false }
    muxFail := false }

/-- A readable input whose container metadata reports 0 frames while the
stream still decodes one frame. -/
def envZeroTotal : Env :=
  { input := some
      { fps := 30, width := 1, height := 1, total_frames := 0
        frames := [tFrame1], hasAudio := false }
    muxFail := false }

theorem shift_image_ok (image : Image Pix) (disparity : Image ℚ)
    (direction : ℚ)
    (h : (disparity.height = image.height ∨ disparity.height = 1)
      ∧ (disparity.width = image.width ∨ disparity.width = 1)) :
    shift_image image disparity direction =
      Except.ok (shiftCore image disparity direction) := by
  unfold shift_image
  exact if_pos h

theorem shift_image_err (image : Image Pix) (disparity : Image ℚ)
    (direction : ℚ)
    (h : ¬((disparity.height = image.height ∨ disparity.height = 1)
      ∧ (disparity.width = image.width ∨ disparity.width = 1))) :
    shift_image image disparity direction =
      Except.error "operands could not be broadcast together" := by
  unfold shift_image
  exact if_neg h

theorem broadcastIdx_of_lt (m i : ℕ) (h : i < m) : broadcastIdx m i = i := by
  unfold broadcastIdx
  split
  · omega
  · rfl

theorem shiftCore_zero_pix (image : Image Pix) (disparity : Image ℚ)
    (direction : ℚ) (y x : ℕ) (hx : x < image.width)
    (hd : disparity.pix (broadcastIdx disparity.height y)
      (broadcastIdx disparity.width x) = 0) :
    (shiftCore image disparity direction).pix y x = image.pix y x := by
  have hx1 : (x : ℚ) + 1 ≤ (image.width : ℚ) := by exact_mod_cast hx
  have hclip : clipQ ((x : ℚ) + shiftTerm
      (disparity.pix (broadcastIdx disparity.height y)
        (broadcastIdx disparity.width x)) direction) 0
      ((image.width : ℚ) - 1) = (x : ℚ) := by
    rw [hd]
    unfold shiftTerm clipQ
    rw [zero_mul, zero_mul, add_zero]
    rw [min_eq_left (by linarith), max_eq_right (by positivity)]
  show (fun c => _) = image.pix y x
  funext c
  simp only [shiftCore, hclip, Int.floor_natCast, Int.cast_natCast,
    Int.toNat_natCast, sub_self]
  ring

/-- C4: for every depth map value in the `uint8` range, the disparity
produced by the stereo synthesizer is non-negative, and the horizontal
sampling shift it applies (`disparity * direction * 0.3`, with direction
`+1` for the left eye and `-1` for the right eye) never exceeds
`15 × 0.3 = 4.5` pixels in magnitude. -/
theorem claim4_shift_bounds (depth_map : Image ℚ) (y x : ℕ)
    (h0 : 0 ≤ depth_map.pix y x) (h255 : depth_map.pix y x ≤ 255) :
    0 ≤ (disparityMap depth_map).pix y x ∧
    |shiftTerm ((disparityMap depth_map).pix y x) 1| ≤ 9 / 2 ∧
    |shiftTerm ((disparityMap depth_map).pix y x) (-1)| ≤ 9 / 2 := by
  have hd : (disparityMap depth_map).pix y x
      = depth_map.pix y x / 255 * 15 := rfl
  refine ⟨?_, ?_, ?_⟩
  · rw [hd]
    exact mul_nonneg (div_nonneg h0 (by norm_num)) (by norm_num)
  · rw [abs_le]
    unfold shiftTerm
    rw [hd]
    constructor <;> nlinarith
  · rw [abs_le]
    unfold shiftTerm
    rw [hd]
    constructor <;> nlinarith

theorem claim4_witness :
    0 ≤ (disparityMap tDepthFull).pix 0 0 ∧
    |shiftTerm ((disparityMap tDepthFull).pix 0 0) 1| ≤ 9 / 2 ∧
    |shiftTerm ((disparityMap tDepthFull).pix 0 0) (-1)| ≤ 9 / 2 :=
  claim4_shift_bounds tDepthFull 0 0 (by norm_num [tDepthFull])
    (by norm_num [tDepthFull])

/-- C5: when frame and depth map have matching dimensions, the stereo
pair is produced, and at every pixel whose depth value is 0 both eye
views reproduce the source pixel exactly (zero disparity means identity
sampling under the exact bilinear model). -/
theorem claim5_zero_depth_identity (frame : Image Pix) (depth : Image ℚ)
    (hh : depth.height = frame.height) (hw : depth.width = frame.width)
    (y x : ℕ) (hy : y < frame.height) (hx : x < frame.width)
    (h0 : depth.pix y x = 0) :
    create_stereo_pair frame depth =
      Except.ok (shiftCore frame (disparityMap depth) 1,
        shiftCore frame (disparityMap depth) (-1)) ∧
    (shiftCore frame (disparityMap depth) 1).pix y x = frame.pix y x ∧
    (shiftCore frame (disparityMap depth) (-1)).pix y x = frame.pix y x := by
  have hc : ((disparityMap depth).height = frame.height
      ∨ (disparityMap depth).height = 1)
      ∧ ((disparityMap depth).width = frame.width
      ∨ (disparityMap depth).width = 1) := ⟨Or.inl hh, Or.inl hw⟩
  have hby : broadcastIdx (disparityMap depth).height y = y :=
    broadcastIdx_of_lt _ _ (by rw [show (disparityMap depth).height
      = depth.height from rfl, hh]; exact hy)
  have hbx : broadcastIdx (disparityMap depth).width x = x :=
    broadcastIdx_of_lt _ _ (by rw [show (disparityMap depth).width
      = depth.width from rfl, hw]; exact hx)
  have hdz : (disparityMap depth).pix (broadcastIdx (disparityMap depth).height y)
      (broadcastIdx (disparityMap depth).width x) = 0 := by
    rw [hby, hbx]
    show depth.pix y x / 255 * 15 = 0
    rw [h0]
    norm_num
  refine ⟨?_, ?_, ?_⟩
  · simp only [create_stereo_pair, shift_image_ok _ _ _ hc]
  · exact shiftCore_zero_pix frame (disparityMap depth) 1 y x hx hdz
  · exact shiftCore_zero_pix frame (disparityMap depth) (-1) y x hx hdz

theorem claim5_witness :
    create_stereo_pair tFrame tDepthZero =
      Except.ok (shiftCore tFrame (disparityMap tDepthZero) 1,
        shiftCore tFrame (disparityMap tDepthZero) (-1)) ∧
    (shiftCore tFrame (disparityMap tDepthZero) 1).pix 0 0 = tFrame.pix 0 0 ∧
    (shiftCore tFrame (disparityMap tDepthZero) (-1)).pix 0 0 = tFrame.pix 0 0 :=
  claim5_zero_depth_identity tFrame tDepthZero rfl rfl 0 0
    (by norm_num [tFrame]) (by norm_num [tFrame]) rfl

/-- C9 (counterexample): a 2×2 frame with a 1×1 depth map has mismatched
dimensions, yet `create_stereo_pair` silently produces output by NumPy
broadcasting instead of rejecting the call with an invalid-input error. -/
theorem claim9_counterexample :
    ¬(tDepthFull.height = tFrame.height ∧ tDepthFull.width = tFrame.width) ∧
    create_stereo_pair tFrame tDepthFull =
      Except.ok (shiftCore tFrame (disparityMap tDepthFull) 1,
        shiftCore tFrame (disparityMap tDepthFull) (-1)) := by
  constructor
  · intro h
    exact absurd h.1 (by norm_num [tFrame, tDepthFull])
  · have hc : ((disparityMap tDepthFull).height = tFrame.height
        ∨ (disparityMap tDepthFull).height = 1)
        ∧ ((disparityMap tDepthFull).width = tFrame.width
        ∨ (disparityMap tDepthFull).width = 1) :=
      ⟨Or.inr rfl, Or.inr rfl⟩
    simp only [create_stereo_pair, shift_image_ok _ _ _ hc]

/-- C9 (amended): the stereo synthesizer performs no dimension
validation.  It is total over every frame/depth pair whose shapes are
NumPy-broadcast-compatible (each depth axis equals the frame axis or has
extent 1) — in particular over every pair of matching dimensions — and
on non-broadcastable shapes it fails with an uncaught broadcasting error
rather than a designed invalid-input rejection. -/
theorem claim9_amended (frame : Image Pix) (depth : Image ℚ) :
    ((depth.height = frame.height ∨ depth.height = 1)
        ∧ (depth.width = frame.width ∨ depth.width = 1) →
      create_stereo_pair frame depth =
        Except.ok (shiftCore frame (disparityMap depth) 1,
          shiftCore frame (disparityMap depth) (-1))) ∧
    (¬((depth.height = frame.height ∨ depth.height = 1)
        ∧ (depth.width = frame.width ∨ depth.width = 1)) →
      create_stereo_pair frame depth =
        Except.error "operands could not be broadcast together") := by
  constructor
  · intro h
    have hc : ((disparityMap depth).height = frame.height
        ∨ (disparityMap depth).height = 1)
        ∧ ((disparityMap depth).width = frame.width
        ∨ (disparityMap depth).width = 1) := h
    simp only [create_stereo_pair, shift_image_ok _ _ _ hc]
  · intro h
    have hc : ¬(((disparityMap depth).height = frame.height
        ∨ (disparityMap depth).height = 1)
        ∧ ((disparityMap depth).width = frame.width
        ∨ (disparityMap depth).width = 1)) := h
    simp only [create_stereo_pair, shift_image_err _ _ _ hc]

theorem claim9_witness :
    create_stereo_pair tFrame tDepthZero =
      Except.ok (shiftCore tFrame (disparityMap tDepthZero) 1,
        shiftCore tFrame (disparityMap tDepthZero) (-1)) :=
  (claim9_amended tFrame tDepthZero).1 ⟨Or.inl rfl, Or.inl rfl⟩

theorem reflect101_lt (n : ℕ) (hn : 0 < n) (p : ℤ) : reflect101 n p < n := by
  unfold reflect101
  split
  · omega
  · rename_i h1
    have h2 : 2 ≤ n := by omega
    have hmpos : (0 : ℤ) < 2 * (n : ℤ) - 2 := by
      have : (2 : ℤ) ≤ (n : ℤ) := by exact_mod_cast h2
      linarith
    have hr0 : 0 ≤ p.emod (2 * (n : ℤ) - 2) :=
      Int.emod_nonneg p (by omega)
    have hrlt : p.emod (2 * (n : ℤ) - 2) < 2 * (n : ℤ) - 2 :=
      Int.emod_lt_of_pos p hmpos
    split <;> omega

theorem w7_nonneg (i : ℕ) : 0 ≤ w7 i := by
  unfold w7
  repeat' split
  all_goals norm_num

theorem w7_sum : ∑ i in Finset.range 7, w7 i = 1 := by
  simp [Finset.sum_range_succ, w7]
  norm_num

theorem gridMin_le (img : Image ℝ) (y x : ℕ) (hy : y < img.height)
    (hx : x < img.width) : gridMin img ≤ img.pix y x := by
  have hmem : (y, x) ∈ (Finset.range img.height) ×ˢ (Finset.range img.width) :=
    Finset.mem_product.mpr ⟨Finset.mem_range.mpr hy, Finset.mem_range.mpr hx⟩
  unfold gridMin
  rw [dif_pos ⟨(y, x), hmem⟩]
  exact Finset.inf'_le (fun p => img.pix p.1 p.2) hmem

theorem le_gridMax (img : Image ℝ) (y x : ℕ) (hy : y < img.height)
    (hx : x < img.width) : img.pix y x ≤ gridMax img := by
  have hmem : (y, x) ∈ (Finset.range img.height) ×ˢ (Finset.range img.width) :=
    Finset.mem_product.mpr ⟨Finset.mem_range.mpr hy, Finset.mem_range.mpr hx⟩
  unfold gridMax
  rw [dif_pos ⟨(y, x), hmem⟩]
  exact Finset.le_sup' (fun p => img.pix p.1 p.2) hmem

theorem normalize_bounds (img : Image ℝ) (y x : ℕ) (hy : y < img.height)
    (hx : x < img.width) :
    0 ≤ (normalizeMinMax img).pix y x ∧ (normalizeMinMax img).pix y x ≤ 255 := by
  have hlo := gridMin_le img y x hy hx
  have hhi := le_gridMax img y x hy hx
  have hpix : (normalizeMinMax img).pix y x =
      if 0 < gridMax img - gridMin img then
        (img.pix y x - gridMin img) * (255 / (gridMax img - gridMin img))
      else 0 := rfl
  rw [hpix]
  split
  · rename_i hc
    constructor
    · exact mul_nonneg (by linarith)
        (div_nonneg (by norm_num) (le_of_lt hc))
    · have h1 : img.pix y x - gridMin img ≤ gridMax img - gridMin img := by
        linarith
      have h2 : (img.pix y x - gridMin img)
          * (255 / (gridMax img - gridMin img))
          ≤ (gridMax img - gridMin img)
          * (255 / (gridMax img - gridMin img)) :=
        mul_le_mul_of_nonneg_right h1
          (div_nonneg (by norm_num) (le_of_lt hc))
      have h3 : (gridMax img - gridMin img)
          * (255 / (gridMax img - gridMin img)) = 255 := by
        field_simp
      linarith
  · norm_num

theorem blur7_bounds (img : Image ℝ) (hh : 0 < img.height)
    (hw : 0 < img.width)
    (hb : ∀ y, y < img.height → ∀ x, x < img.width →
      0 ≤ img.pix y x ∧ img.pix y x ≤ 255) (y x : ℕ) :
    0 ≤ (gaussianBlur7F img).pix y x ∧ (gaussianBlur7F img).pix y x ≤ 255 := by
  have hw7 : ∀ i : ℕ, (0 : ℝ) ≤ (w7 i : ℝ) := fun i => by
    exact_mod_cast w7_nonneg i
  have hv : ∀ i j : ℕ,
      0 ≤ img.pix (reflect101 img.height ((y : ℤ) + (i : ℤ) - 3))
        (reflect101 img.width ((x : ℤ) + (j : ℤ) - 3)) ∧
      img.pix (reflect101 img.height ((y : ℤ) + (i : ℤ) - 3))
        (reflect101 img.width ((x : ℤ) + (j : ℤ) - 3)) ≤ 255 := fun i j =>
    hb _ (reflect101_lt _ hh _) _ (reflect101_lt _ hw _)
  have hpix : (gaussianBlur7F img).pix y x =
      ∑ i in Finset.range 7, ∑ j in Finset.range 7,
        ((w7 i : ℝ) * (w7 j : ℝ))
          * img.pix (reflect101 img.height ((y : ℤ) + (i : ℤ) - 3))
            (reflect101 img.width ((x : ℤ) + (j : ℤ) - 3)) := rfl
  rw [hpix]
  constructor
  · apply Finset.sum_nonneg
    intro i _
    apply Finset.sum_nonneg
    intro j _
    exact mul_nonneg (mul_nonneg (hw7 i) (hw7 j)) (hv i j).1
  · have hs : (∑ i in Finset.range 7, (w7 i : ℝ)) = 1 := by
      have hq : (∑ i in Finset.range 7, w7 i) = (1 : ℚ) := w7_sum
      have : ((∑ i in Finset.range 7, w7 i : ℚ) : ℝ)
          = ∑ i in Finset.range 7, (w7 i : ℝ) := by push_cast; ring
      rw [← this, hq]
      norm_num
    have hsum255 : (∑ j in Finset.range 7, (w7 j : ℝ) * 255) = 255 := by
      rw [← Finset.sum_mul, hs, one_mul]
    calc ∑ i in Finset.range 7, ∑ j in Finset.range 7,
        ((w7 i : ℝ) * (w7 j : ℝ))
          * img.pix (reflect101 img.height ((y : ℤ) + (i : ℤ) - 3))
            (reflect101 img.width ((x : ℤ) + (j : ℤ) - 3))
        ≤ ∑ i in Finset.range 7, ∑ j in Finset.range 7,
          ((w7 i : ℝ) * (w7 j : ℝ)) * 255 := by
          apply Finset.sum_le_sum
          intro i _
          apply Finset.sum_le_sum
          intro j _
          exact mul_le_mul_of_nonneg_left (hv i j).2
            (mul_nonneg (hw7 i) (hw7 j))
      _ = ∑ i in Finset.range 7,
          (w7 i : ℝ) * (∑ j in Finset.range 7, (w7 j : ℝ) * 255) := by
          apply Finset.sum_congr rfl
          intro i _
          rw [Finset.mul_sum]
          apply Finset.sum_congr rfl
          intro j _
          ring
      _ = 255 := by rw [hsum255, ← Finset.sum_mul, hs, one_mul]

/-- C7: the depth estimator is total, its output is a single-channel map
with exactly the input's width and height, and — thanks to the per-frame
min-max normalization to `[0,255]`, the convex 7×7 smoothing blur, and
the 8-bit quantization — every output value lies in `[0,255]`. -/
theorem claim7_depth_estimator (frame : Image Pix) :
    (simple_depth_estimation frame).height = frame.height ∧
    (simple_depth_estimation frame).width = frame.width ∧
    ∀ y, y < frame.height → ∀ x, x < frame.width →
      0 ≤ (simple_depth_estimation frame).pix y x ∧
      (simple_depth_estimation frame).pix y x ≤ 255 := by
  refine ⟨rfl, rfl, ?_⟩
  intro y hy x hx
  have hh : 0 < frame.height := lt_of_le_of_lt (Nat.zero_le y) hy
  have hw : 0 < frame.width := lt_of_le_of_lt (Nat.zero_le x) hx
  have hnorm : ∀ y', y' < (normalizeMinMax (depthCombined frame)).height →
      ∀ x', x' < (normalizeMinMax (depthCombined frame)).width →
      0 ≤ (normalizeMinMax (depthCombined frame)).pix y' x' ∧
      (normalizeMinMax (depthCombined frame)).pix y' x' ≤ 255 := by
    intro y' hy' x' hx'
    exact normalize_bounds (depthCombined frame) y' x' hy' hx'
  have hblur := blur7_bounds (normalizeMinMax (depthCombined frame))
    hh hw hnorm y x
  have hpix : (simple_depth_estimation frame).pix y x =
      ((⌊(gaussianBlur7F (normalizeMinMax (depthCombined frame))).pix y x⌋
        : ℤ) : ℚ) := rfl
  rw [hpix]
  constructor
  · have h0 : (0 : ℤ) ≤
        ⌊(gaussianBlur7F (normalizeMinMax (depthCombined frame))).pix y x⌋ :=
      Int.floor_nonneg.mpr hblur.1
    exact_mod_cast h0
  · have h1 : ⌊(gaussianBlur7F (normalizeMinMax (depthCombined frame))).pix
        y x⌋ ≤ (255 : ℤ) := by
      have h2 := Int.floor_le_floor hblur.2
      simpa using h2
    exact_mod_cast h1

theorem claim7_witness :
    (simple_depth_estimation tFrame1).height = tFrame1.height ∧
    (simple_depth_estimation tFrame1).width = tFrame1.width ∧
    0 ≤ (simple_depth_estimation tFrame1).pix 0 0 ∧
    (simple_depth_estimation tFrame1).pix 0 0 ≤ 255 := by
  obtain ⟨h1, h2, h3⟩ := claim7_depth_estimator tFrame1
  exact ⟨h1, h2, (h3 0 (by norm_num [tFrame1]) 0 (by norm_num [tFrame1])).1,
    (h3 0 (by norm_num [tFrame1]) 0 (by norm_num [tFrame1])).2⟩

theorem stereo_ok (f : Image Pix) :
    create_stereo_pair f (simple_depth_estimation f) =
      Except.ok (shiftCore f (disparityMap (simple_depth_estimation f)) 1,
        shiftCore f (disparityMap (simple_depth_estimation f)) (-1)) := by
  have hc : ((disparityMap (simple_depth_estimation f)).height = f.height
      ∨ (disparityMap (simple_depth_estimation f)).height = 1)
      ∧ ((disparityMap (simple_depth_estimation f)).width = f.width
      ∨ (disparityMap (simple_depth_estimation f)).width = 1) :=
    ⟨Or.inl rfl, Or.inl rfl⟩
  simp only [create_stereo_pair, shift_image_ok _ _ _ hc]

theorem vrFrame_height (f : Image Pix) : (vrFrame f).height = f.height := rfl

theorem vrFrame_width (f : Image Pix) :
    (vrFrame f).width = f.width + f.width := rfl

theorem writeFrame_trace (st : LoopSt) (wop : Bool) (mw mh : ℕ)
    (vr : Image Pix) : (writeFrame st wop mw mh vr).trace = st.trace := by
  unfold writeFrame
  split <;> rfl

theorem writeFrame_written_pos (st : LoopSt) (mw mh : ℕ) (vr : Image Pix)
    (h1 : vr.height = mh) (h2 : vr.width = 2 * mw) :
    (writeFrame st true mw mh vr).written = st.written ++ [vr] := by
  unfold writeFrame
  rw [if_pos ⟨rfl, h1, h2⟩]

theorem processFrame_char (cb : Bool) (total mw mh : ℕ) (wop : Bool)
    (hor : cb = false ∨ total ≠ 0) (k : ℕ) (f : Image Pix) (st : LoopSt) :
    processFrame cb total mw mh wop k f st =
      (writeFrame
        { trace := st.trace ++ (if cb = true ∧ k % 30 = 0 then
            [(pct k total, "Analyzing depth...", 1),
              (pct k total, "Creating stereo view...", 2)]
          else [])
          written := st.written } wop mw mh (vrFrame f), none) := by
  by_cases hp : cb = true ∧ k % 30 = 0
  · have htot : ¬total = 0 := by
      rcases hor with h | h
      · rw [h] at hp
        exact absurd hp.1 (by simp)
      · exact h
    simp only [processFrame, if_pos hp, if_neg htot, stereo_ok]
    rw [List.append_assoc]
    rfl
  · simp only [processFrame, if_neg hp, stereo_ok]
    rw [List.append_nil]
    rfl

theorem processFrames_char (cb : Bool) (total mw mh : ℕ) (wop : Bool)
    (hor : cb = false ∨ total ≠ 0) (fs : List (Image Pix)) :
    ∀ (k : ℕ) (st : LoopSt),
      (processFrames cb total mw mh wop fs k st).2 = none ∧
      (processFrames cb total mw mh wop fs k st).1.trace =
        st.trace ++ loopTrace cb total fs.length k := by
  induction fs with
  | nil =>
    intro k st
    exact ⟨rfl, by simp [processFrames, loopTrace]⟩
  | cons f rest ih =>
    intro k st
    have hstep := processFrame_char cb total mw mh wop hor k f st
    simp only [processFrames, hstep]
    refine ⟨(ih _ _).1, ?_⟩
    rw [(ih _ _).2, writeFrame_trace]
    show st.trace ++ _ ++ _ = _
    rw [List.append_assoc, List.length_cons]
    rfl

theorem processFrames_written (cb : Bool) (total mw mh : ℕ)
    (hor : cb = false ∨ total ≠ 0) (fs : List (Image Pix)) :
    ∀ (k : ℕ) (st : LoopSt),
      (∀ f ∈ fs, f.height = mh ∧ f.width = mw) →
      (processFrames cb total mw mh true fs k st).1.written =
        st.written ++ fs.map vrFrame := by
  induction fs with
  | nil =>
    intro k st _
    simp [processFrames]
  | cons f rest ih =>
    intro k st hdim
    have hstep := processFrame_char cb total mw mh true hor k f st
    simp only [processFrames, hstep]
    have hf := hdim f (by simp)
    have hrest : ∀ g ∈ rest, g.height = mh ∧ g.width = mw := fun g hg =>
      hdim g (by simp [hg])
    rw [ih _ _ hrest]
    rw [writeFrame_written_pos _ _ _ _ (by rw [vrFrame_height, hf.1])
      (by rw [vrFrame_width, hf.2]; ring)]
    simp

theorem convert_char (env : Env) (cb : Bool) (v : VideoFile)
    (hv : env.input = some v) (hcb : cb = false ∨ v.total_frames ≠ 0)
    (hf : 0 < v.fps) (hw : 0 < v.width) (hh : 0 < v.height) :
    (convert_to_vr180 env cb).trace =
      (if cb = true then [((10 : ℚ), "Loading video...", (0 : ℕ))] else [])
      ++ loopTrace cb v.total_frames v.frames.length 0
      ++ (if cb = true then [((95 : ℚ), "Adding audio...", (3 : ℕ))] else [])
      ++ (if v.hasAudio = true ∧ env.muxFail = true then []
        else if cb = true then
          [((100 : ℚ), "Conversion complete!", (4 : ℕ))] else []) ∧
    (convert_to_vr180 env cb).capOpen = false ∧
    (convert_to_vr180 env cb).outOpen = false ∧
    (convert_to_vr180 env cb).tempVideoExists = false ∧
    (convert_to_vr180 env cb).outputDirExists = true ∧
    (convert_to_vr180 env cb).written =
      (processFrames cb v.total_frames v.width v.height true v.frames 0
        { trace := [], written := [] }).1.written ∧
    (convert_to_vr180 env cb).result =
      (if v.hasAudio = true ∧ env.muxFail = true
        then Except.error (pyMsg PyError.muxFailure)
        else Except.ok "vr180_output.mp4") ∧
    (convert_to_vr180 env cb).outputExists =
      (if v.hasAudio = true ∧ env.muxFail = true then false else true) := by
  have hwop : (decide (0 < v.fps) && decide (0 < v.width)
      && decide (0 < v.height)) = true := by
    simp [hf, hw, hh]
  have hloop := processFrames_char cb v.total_frames v.width v.height
    true hcb v.frames 0 { trace := [], written := [] }
  simp only [convert_to_vr180, hv, hwop, hloop.1]
  cases hA : v.hasAudio <;> cases hM : env.muxFail <;>
    simp [hA, hM, hloop.2, List.append_assoc]

theorem convert_zeroDiv_char (env : Env) (v : VideoFile) (f : Image Pix)
    (rest : List (Image Pix)) (hv : env.input = some v)
    (htot : v.total_frames = 0) (hfr : v.frames = f :: rest) :
    (convert_to_vr180 env true).result =
      Except.error (pyMsg PyError.zeroDivision) ∧
    (convert_to_vr180 env true).capOpen = true ∧
    (convert_to_vr180 env true).outOpen = true ∧
    (convert_to_vr180 env true).tempVideoExists = false ∧
    (convert_to_vr180 env true).outputExists = false ∧
    (convert_to_vr180 env true).outputDirExists = true ∧
    (convert_to_vr180 env true).written = [] ∧
    (convert_to_vr180 env true).trace =
      [((10 : ℚ), "Loading video...", (0 : ℕ))] := by
  have hpf : ∀ (wop : Bool),
      processFrames true v.total_frames v.width v.height wop
        (f :: rest) 0 { trace := [], written := [] } =
      ({ trace := [], written := [] }, some PyError.zeroDivision) := by
    intro wop
    rw [htot]
    simp [processFrames, processFrame]
  simp only [convert_to_vr180, hv, hfr, hpf]
  simp

/-- C1 (counterexample): with a readable one-frame input that has an
audio track and a failing mux step, `convert_to_vr180` does abort: it
raises the conversion-failure exception and has already deleted the
video-only temp file, so nothing is returned to the caller. -/
theorem claim1_counterexample :
    (convert_to_vr180 envMux false).result =
      Except.error "Conversion failed: audio mux error" ∧
    (convert_to_vr180 envMux false).tempVideoExists = false := by
  obtain ⟨-, -, -, htmp, -, -, hres, -⟩ := convert_char envMux false
    { fps := 30, width := 1, height := 1, total_frames := 5
      frames := [tFrame1], hasAudio := true } rfl (Or.inl rfl)
    (by norm_num) (by norm_num) (by norm_num)
  rw [hres, if_pos ⟨rfl, rfl⟩]
  exact ⟨rfl, htmp⟩

/-- C1 (amended): if the audio mux / re-encode step fails after the
video-only stream has been fully written, `convert_to_vr180` aborts the
whole conversion: the exception handler deletes the video-only temp file
and re-raises a conversion-failure exception, so the failure surfaces to
the caller as a conversion failure (not a warning) and no file at all is
returned. -/
theorem claim1_amended (env : Env) (cb : Bool) (v : VideoFile)
    (hv : env.input = some v) (hcb : cb = false ∨ v.total_frames ≠ 0)
    (hf : 0 < v.fps) (hw : 0 < v.width) (hh : 0 < v.height)
    (hA : v.hasAudio = true) (hM : env.muxFail = true) :
    (convert_to_vr180 env cb).result =
      Except.error (pyMsg PyError.muxFailure) ∧
    (convert_to_vr180 env cb).tempVideoExists = false ∧
    (convert_to_vr180 env cb).outputExists = false := by
  obtain ⟨-, -, -, htmp, -, -, hres, hout⟩ :=
    convert_char env cb v hv hcb hf hw hh
  rw [hres, hout, if_pos ⟨hA, hM⟩, if_pos ⟨hA, hM⟩]
  exact ⟨rfl, htmp, rfl⟩

theorem claim1_witness :
    (convert_to_vr180 envMux false).result =
      Except.error (pyMsg PyError.muxFailure) ∧
    (convert_to_vr180 envMux false).tempVideoExists = false ∧
    (convert_to_vr180 envMux false).outputExists = false :=
  claim1_amended envMux false
    { fps := 30, width := 1, height := 1, total_frames := 5
      frames := [tFrame1], hasAudio := true } rfl (Or.inl rfl)
    (by norm_num) (by norm_num) (by norm_num) rfl rfl

/-- C2 (counterexample): a successful conversion is an exit path on which
the temporary output directory created by the call is not removed (the
returned output file lives inside it and no `rmdir` exists in the code),
contradicting the claim that the temp directory is removed on every exit
path. -/
theorem claim2_counterexample :
    (convert_to_vr180 envOk false).result = Except.ok "vr180_output.mp4" ∧
    (convert_to_vr180 envOk false).outputDirExists = true := by
  obtain ⟨-, -, -, -, hdir, -, hres, -⟩ := convert_char envOk false
    { fps := 30, width := 1, height := 1, total_frames := 5
      frames := [tFrame1], hasAudio := false } rfl (Or.inl rfl)
    (by norm_num) (by norm_num) (by norm_num)
  rw [hres, if_neg (by simp)]
  exact ⟨rfl, hdir⟩

/-- C2 (amended): cleanup is partial.  On loop-completing exits (success
or mux failure) the capture and writer handles are released and the temp
video file is removed, but the temporary output directory is never
removed.  On an error raised inside the frame loop the capture and writer
handles are not released (only the temp video file is deleted by the
`except` handler before the error is surfaced), and the temp directory
again remains. -/
theorem claim2_amended :
    (∀ (env : Env) (cb : Bool) (v : VideoFile), env.input = some v →
      (cb = false ∨ v.total_frames ≠ 0) → 0 < v.fps → 0 < v.width →
      0 < v.height →
      (convert_to_vr180 env cb).capOpen = false ∧
      (convert_to_vr180 env cb).outOpen = false ∧
      (convert_to_vr180 env cb).tempVideoExists = false ∧
      (convert_to_vr180 env cb).outputDirExists = true) ∧
    (∀ (env : Env) (v : VideoFile) (f : Image Pix) (rest : List (Image Pix)),
      env.input = some v → v.total_frames = 0 → v.frames = f :: rest →
      (convert_to_vr180 env true).capOpen = true ∧
      (convert_to_vr180 env true).outOpen = true ∧
      (convert_to_vr180 env true).tempVideoExists = false ∧
      (convert_to_vr180 env true).outputDirExists = true ∧
      (convert_to_vr180 env true).result =
        Except.error (pyMsg PyError.zeroDivision)) := by
  constructor
  · intro env cb v hv hcb hf hw hh
    obtain ⟨-, h2, h3, h4, h5, -, -, -⟩ := convert_char env cb v hv hcb hf hw hh
    exact ⟨h2, h3, h4, h5⟩
  · intro env v f rest hv htot hfr
    obtain ⟨h1, h2, h3, h4, -, h6, -, -⟩ :=
      convert_zeroDiv_char env v f rest hv htot hfr
    exact ⟨h2, h3, h4, h6, h1⟩

theorem claim2_witness :
    (convert_to_vr180 envOk false).capOpen = false ∧
    (convert_to_vr180 envOk false).outOpen = false ∧
    (convert_to_vr180 envOk false).tempVideoExists = false ∧
    (convert_to_vr180 envOk false).outputDirExists = true :=
  claim2_amended.1 envOk false
    { fps := 30, width := 1, height := 1, total_frames := 5
      frames := [tFrame1], hasAudio := false } rfl (Or.inl rfl)
    (by norm_num) (by norm_num) (by norm_num)

/-- C3 (counterexample): on an unopenable input `convert_to_vr180` does
not fail at the Load stage: `cv2.VideoCapture` yields zero metadata
without raising, the frame loop runs over zero frames, the audio-stage
callback (stage 3, percent 95) is still invoked, and only then does
`VideoFileClip(input_path)` raise — surfaced as the generic
conversion-failure exception, not a typed `InvalidInput` at Load. -/
theorem claim3_counterexample :
    (convert_to_vr180 envNoInput true).result =
      Except.error (pyMsg PyError.moviepyUnreadable) ∧
    ((95 : ℚ), "Adding audio...", (3 : ℕ)) ∈
      (convert_to_vr180 envNoInput true).trace := by
  constructor
  · rfl
  · show ((95 : ℚ), "Adding audio...", (3 : ℕ)) ∈
      ([((10 : ℚ), "Loading video...", (0 : ℕ)),
        ((95 : ℚ), "Adding audio...", (3 : ℕ))] : List ProgressEvent)
    simp

/-- C3 (amended): an unopenable or metadata-unreadable input does not
abort at Load.  The zeroed metadata flows through an empty frame loop;
the conversion reaches the audio stage (invoking the stage-3 callback
when a callback is supplied) and fails there, when MoviePy cannot read
the input, with the generic conversion-failure exception.  No output
video file is produced, but the temp directory is left behind. -/
theorem claim3_amended (env : Env) (cb : Bool) (hv : env.input = none) :
    (convert_to_vr180 env cb).result =
      Except.error (pyMsg PyError.moviepyUnreadable) ∧
    (convert_to_vr180 env cb).written = [] ∧
    (convert_to_vr180 env cb).outputExists = false ∧
    (convert_to_vr180 env cb).outputDirExists = true ∧
    (cb = true → (convert_to_vr180 env cb).trace =
      [((10 : ℚ), "Loading video...", (0 : ℕ)),
        ((95 : ℚ), "Adding audio...", (3 : ℕ))]) := by
  refine ⟨?_, ?_, ?_, ?_, ?_⟩
  · simp only [convert_to_vr180, hv, processFrames]
  · simp only [convert_to_vr180, hv, processFrames]
  · simp only [convert_to_vr180, hv, processFrames]
  · simp only [convert_to_vr180, hv, processFrames]
  · intro hcb
    rw [hcb]
    simp only [convert_to_vr180, hv, processFrames]
    simp

theorem claim3_witness :
    (convert_to_vr180 envNoInput false).result =
      Except.error (pyMsg PyError.moviepyUnreadable) ∧
    (convert_to_vr180 envNoInput false).written = [] ∧
    (convert_to_vr180 envNoInput false).outputExists = false ∧
    (convert_to_vr180 envNoInput false).outputDirExists = true ∧
    (false = true → (convert_to_vr180 envNoInput false).trace =
      [((10 : ℚ), "Loading video...", (0 : ℕ)),
        ((95 : ℚ), "Adding audio...", (3 : ℕ))]) :=
  claim3_amended envNoInput false rfl

/-- C10: the progress expression of the frame loop divides by the
metadata frame count with no zero guard.  With a callback supplied, a
metadata frame count of 0, and at least one decodable frame, the very
first iteration (counter 0 passes the every-30th-frame test) raises
`ZeroDivisionError`, which surfaces as the conversion failure; and the
loop can only raise a division error when the total is zero — for a
nonzero total the loop never yields `zeroDivision`. -/
theorem claim10_division_guard :
    (∀ (env : Env) (v : VideoFile) (f : Image Pix) (rest : List (Image Pix)),
      env.input = some v → v.total_frames = 0 → v.frames = f :: rest →
      (convert_to_vr180 env true).result =
        Except.error (pyMsg PyError.zeroDivision) ∧
      (convert_to_vr180 env true).written = [] ∧
      (convert_to_vr180 env true).trace =
        [((10 : ℚ), "Loading video...", (0 : ℕ))]) ∧
    (∀ (cb : Bool) (total mw mh : ℕ) (wop : Bool) (fs : List (Image Pix))
      (k : ℕ) (st : LoopSt), total ≠ 0 →
      (processFrames cb total mw mh wop fs k st).2 ≠
        some PyError.zeroDivision) := by
  constructor
  · intro env v f rest hv htot hfr
    obtain ⟨h1, -, -, -, -, -, h7, h8⟩ :=
      convert_zeroDiv_char env v f rest hv htot hfr
    exact ⟨h1, h7, h8⟩
  · intro cb total mw mh wop fs k st htot
    rw [(processFrames_char cb total mw mh wop (Or.inr htot) fs k st).1]
    simp

theorem claim10_witness :
    (convert_to_vr180 envZeroTotal true).result =
      Except.error (pyMsg PyError.zeroDivision) ∧
    (convert_to_vr180 envZeroTotal true).written = [] ∧
    (convert_to_vr180 envZeroTotal true).trace =
      [((10 : ℚ), "Loading video...", (0 : ℕ))] :=
  claim10_division_guard.1 envZeroTotal
    { fps := 30, width := 1, height := 1, total_frames := 0
      frames := [tFrame1], hasAudio := false } tFrame1 [] rfl rfl rfl

/-- C6: for a valid input video (positive fps and dimensions, every
decoded frame matching the container metadata, and a usable frame-count
when a callback divides by it), the frames written to the output stream
are exactly the input frames, in input order, one stereo frame per input
frame; and each produced stereo frame is the left-then-right horizontal
concatenation with exactly twice the input width and the same height. -/
theorem claim6_frame_order (env : Env) (cb : Bool) (v : VideoFile)
    (hv : env.input = some v) (hcb : cb = false ∨ v.total_frames ≠ 0)
    (hf : 0 < v.fps) (hw : 0 < v.width) (hh : 0 < v.height)
    (hdim : ∀ f ∈ v.frames, f.height = v.height ∧ f.width = v.width) :
    (convert_to_vr180 env cb).written = v.frames.map vrFrame ∧
    ∀ f ∈ v.frames, (vrFrame f).width = 2 * f.width ∧
      (vrFrame f).height = f.height := by
  obtain ⟨-, -, -, -, -, h6, -, -⟩ := convert_char env cb v hv hcb hf hw hh
  constructor
  · rw [h6, processFrames_written cb v.total_frames v.width v.height hcb
      v.frames 0 { trace := [], written := [] } hdim]
    simp
  · intro f _
    exact ⟨by rw [vrFrame_width]; ring, vrFrame_height f⟩

theorem claim6_witness :
    (convert_to_vr180 envOk false).written = [tFrame1].map vrFrame ∧
    ∀ f ∈ [tFrame1], (vrFrame f).width = 2 * f.width ∧
      (vrFrame f).height = f.height :=
  claim6_frame_order envOk false
    { fps := 30, width := 1, height := 1, total_frames := 5
      frames := [tFrame1], hasAudio := false } rfl (Or.inl rfl)
    (by norm_num) (by norm_num) (by norm_num)
    (by
      intro f hf
      rw [List.mem_singleton] at hf
      subst hf
      exact ⟨rfl, rfl⟩)

theorem pct_bounds (j total : ℕ) (hj : j < total) :
    20 ≤ pct j total ∧ pct j total < 80 := by
  have htpos : (0 : ℚ) < total := by
    have : 0 < total := by omega
    exact_mod_cast this
  have hjq : (j : ℚ) < total := by exact_mod_cast hj
  have hdiv0 : (0 : ℚ) ≤ (j : ℚ) / total :=
    div_nonneg (by positivity) (le_of_lt htpos)
  have hdiv1 : (j : ℚ) / total < 1 := (div_lt_one htpos).mpr hjq
  unfold pct
  constructor <;> nlinarith

theorem loopTrace_mem (cb : Bool) (total : ℕ) (n : ℕ) :
    ∀ (k : ℕ) (e : ProgressEvent), e ∈ loopTrace cb total n k →
      ∃ j, k ≤ j ∧ j < k + n ∧
        (e = (pct j total, "Analyzing depth...", 1) ∨
          e = (pct j total, "Creating stereo view...", 2)) := by
  induction n with
  | zero =>
    intro k e he
    simp [loopTrace] at he
  | succ m ih =>
    intro k e he
    rw [loopTrace] at he
    rcases List.mem_append.mp he with h | h
    · by_cases hp : cb = true ∧ k % 30 = 0
      · rw [if_pos hp] at h
        simp only [List.mem_cons, List.mem_singleton] at h
        rcases h with h | h | h
        · exact ⟨k, le_refl k, by omega, Or.inl h⟩
        · exact ⟨k, le_refl k, by omega, Or.inr h⟩
        · simp at h
      · rw [if_neg hp] at h
        simp at h
    · obtain ⟨j, hj1, hj2, hj3⟩ := ih (k + 1) e h
      exact ⟨j, by omega, by omega, hj3⟩

theorem loopTrace_mem_of (total : ℕ) (n : ℕ) :
    ∀ (k j : ℕ), k ≤ j → j < k + n → j % 30 = 0 →
      (pct j total, "Analyzing depth...", 1) ∈ loopTrace true total n k := by
  induction n with
  | zero =>
    intro k j h1 h2 h3
    omega
  | succ m ih =>
    intro k j h1 h2 h3
    rw [loopTrace]
    rcases eq_or_lt_of_le h1 with heq | hlt
    · subst heq
      rw [if_pos ⟨rfl, h3⟩]
      simp
    · exact List.mem_append.mpr
        (Or.inr (ih (k + 1) j (by omega) (by omega) h3))

/-- C8 (amended): with a callback supplied, the callback trace is exactly
callback(10) at load, the periodic per-frame calls with percent
`20 + (framesProcessed/totalFrames)*60` (two per every-30th frame),
callback(95) at audio-stage start and callback(100) on completion —
provided the container frame count is nonzero and at least the number of
decodable frames (and the audio step does not fail); under that proviso
every invocation has percent in `[0,100]` and stage in `[0,4]`, the loop
invocations lying in `[20,80)`. -/
theorem claim8_amended (env : Env) (v : VideoFile)
    (hv : env.input = some v) (hf : 0 < v.fps) (hw : 0 < v.width)
    (hh : 0 < v.height) (htot : v.total_frames ≠ 0)
    (hlen : v.frames.length ≤ v.total_frames)
    (hmux : v.hasAudio = true → env.muxFail = false) :
    (convert_to_vr180 env true).trace =
      [((10 : ℚ), "Loading video...", (0 : ℕ))]
      ++ loopTrace true v.total_frames v.frames.length 0
      ++ [((95 : ℚ), "Adding audio...", (3 : ℕ))]
      ++ [((100 : ℚ), "Conversion complete!", (4 : ℕ))] ∧
    (∀ e ∈ (convert_to_vr180 env true).trace,
      0 ≤ e.1 ∧ e.1 ≤ 100 ∧ e.2.2 ≤ 4) ∧
    (∀ e ∈ loopTrace true v.total_frames v.frames.length 0,
      20 ≤ e.1 ∧ e.1 < 80) := by
  have hAM : ¬(v.hasAudio = true ∧ env.muxFail = true) := by
    rintro ⟨ha, hm⟩
    rw [hmux ha] at hm
    exact Bool.false_ne_true hm
  obtain ⟨h1, -, -, -, -, -, -, -⟩ :=
    convert_char env true v hv (Or.inr htot) hf hw hh
  have hloopb : ∀ e ∈ loopTrace true v.total_frames v.frames.length 0,
      20 ≤ e.1 ∧ e.1 < 80 ∧ e.2.2 ≤ 4 := by
    intro e he
    obtain ⟨j, hj1, hj2, hj3⟩ :=
      loopTrace_mem true v.total_frames v.frames.length 0 e he
    have hjlt : j < v.total_frames := by omega
    obtain ⟨hb1, hb2⟩ := pct_bounds j v.total_frames hjlt
    rcases hj3 with h | h <;> rw [h] <;> exact ⟨hb1, hb2, by norm_num⟩
  have htr : (convert_to_vr180 env true).trace =
      [((10 : ℚ), "Loading video...", (0 : ℕ))]
      ++ loopTrace true v.total_frames v.frames.length 0
      ++ [((95 : ℚ), "Adding audio...", (3 : ℕ))]
      ++ [((100 : ℚ), "Conversion complete!", (4 : ℕ))] := by
    rw [h1, if_neg hAM]
    simp
  refine ⟨htr, ?_, fun e he => ⟨(hloopb e he).1, (hloopb e he).2.1⟩⟩
  intro e he
  rw [htr] at he
  simp only [List.append_assoc, List.mem_append, List.mem_singleton] at he
  rcases he with h | h | h | h
  · rw [h]
    norm_num
  · obtain ⟨hb1, hb2, hb3⟩ := hloopb e h
    exact ⟨by linarith, by linarith, hb3⟩
  · rw [h]
    norm_num
  · rw [h]
    norm_num

theorem claim8_witness :
    (convert_to_vr180 envOk true).trace =
      [((10 : ℚ), "Loading video...", (0 : ℕ))]
      ++ loopTrace true 5 1 0
      ++ [((95 : ℚ), "Adding audio...", (3 : ℕ))]
      ++ [((100 : ℚ), "Conversion complete!", (4 : ℕ))] :=
  (claim8_amended envOk
    { fps := 30, width := 1, height := 1, total_frames := 5
      frames := [tFrame1], hasAudio := false } rfl
    (by norm_num) (by norm_num) (by norm_num) (by norm_num) (by simp)
    (by intro h; simp at h)).1

/-- C8 (counterexample): container frame counts are approximate; with
metadata reporting 1 frame while 31 decode, the loop invokes the callback
at counter 30 with percent `20 + (30/1)*60 = 1820`, far outside
`[0,100]`, refuting the claim that every invocation has percent in
`[0,100]`. -/
theorem claim8_counterexample :
    ((1820 : ℚ), "Analyzing depth...", (1 : ℕ)) ∈
      (convert_to_vr180 envMeta31 true).trace ∧
    ¬((1820 : ℚ) ≤ 100) := by
  constructor
  · obtain ⟨h1, -, -, -, -, -, -, -⟩ := convert_char envMeta31 true
      { fps := 30, width := 1, height := 1, total_frames := 1
        frames := List.replicate 31 tFrame1, hasAudio := false } rfl
      (Or.inr (by norm_num)) (by norm_num) (by norm_num) (by norm_num)
    rw [h1]
    have hm : ((1820 : ℚ), "Analyzing depth...", (1 : ℕ)) ∈
        loopTrace true 1 (List.replicate 31 tFrame1).length 0 := by
      rw [List.length_replicate]
      have hmem := loopTrace_mem_of 1 31 0 30 (by omega) (by omega) (by omega)
      rw [show pct 30 1 = (1820 : ℚ) from by norm_num [pct]] at hmem
      exact hmem
    simp only [List.append_assoc, List.mem_append]
    exact Or.inr (Or.inl hm)
  · norm_num
